import Mathlib

/-!
Verification of the WTA points-dataset analysis pipeline (`src/wta_analysis.py`).

The script is a linear pandas pipeline: load an Excel sheet, derive date and
serve-outcome features, and compute aggregate statistics.  This file gives a
shallow embedding of the pipeline over lists of rows, with machine floats
replaced by exact rationals and pandas nulls (`NaN` / `NaT`) replaced by
`Option`.  Every aggregate definition is translated from the corresponding
pandas expression in the source file; the pandas sorting calls
(`sort_values`, sorted `groupby` keys) are embedded as stable insertion
sorts, which on the groupby outputs (whose keys are distinct) coincide with
sorting by the lexicographic order (primary key, then group label).
-/

namespace WTA

/-- A raw match-date cell, before `pd.to_datetime`: either a well-formed
date (year, month, day), an unparseable value, or an empty cell. -/
inductive RawDate where
  | valid (y m d : Nat)
  | invalid (s : String)
  | null
deriving DecidableEq

/-- A raw spreadsheet row as loaded by `pd.read_excel` (line 24): each cell
may be null (pandas `NaN`). -/
structure RawRow where
  rawDate : RawDate
  tournamentId : Option Nat
  tournamentName : Option String
  matchId : Option Nat
  surface : Option String
  wonServe : Option String
deriving DecidableEq

/-- Modelled from the spec: `pd.to_datetime(..., errors="coerce")`
(line 36) is pandas library code outside this repository; per the spec it
parses well-formed dates and coerces unparseable or missing values to null
instead of raising. -/
def to_datetime_coerce : RawDate → Option (Nat × Nat × Nat)
  | RawDate.valid y m d => some (y, m, d)
  | RawDate.invalid _ => none
  | RawDate.null => none

/-- A row after the cleaning block (lines 36-39): parsed date, month
period, and the two derived serve flags, alongside the raw identifier
columns. -/
structure GameRow where
  matchDate : Option (Nat × Nat × Nat)
  month : Option (Nat × Nat)
  tournamentId : Option Nat
  tournamentName : Option String
  matchId : Option Nat
  surface : Option String
  hold : Nat
  is_service_game : Nat
deriving DecidableEq

/-- The cleaning block (lines 36-39):
`df["MATCH DATE"] = pd.to_datetime(df["MATCH DATE"], errors="coerce")`,
`df["MONTH"] = df["MATCH DATE"].dt.to_period("M")`,
`df["hold"] = (df["WON SERVE"] == "WON").astype(int)`,
`df["is_service_game"] = df["WON SERVE"].isin(["WON", "LOST"]).astype(int)`.
In pandas a null `WON SERVE` compares unequal to `"WON"` and is not a
member of `["WON", "LOST"]`, which the `Option` model reproduces. -/
def derive (r : RawRow) : GameRow where
  matchDate := to_datetime_coerce r.rawDate
  month := (to_datetime_coerce r.rawDate).map (fun d => (d.1, d.2.1))
  tournamentId := r.tournamentId
  tournamentName := r.tournamentName
  matchId := r.matchId
  surface := r.surface
  hold := if r.wonServe = some "WON" then 1 else 0
  is_service_game :=
    if r.wonServe = some "WON" ∨ r.wonServe = some "LOST" then 1 else 0

/-- `num_rows = len(df)` (line 46). -/
def num_rows (rows : List GameRow) : Nat := rows.length

/-- `serve_games = df[df["is_service_game"] == 1]` (line 59). -/
def serve_games (rows : List GameRow) : List GameRow :=
  rows.filter (fun r => r.is_service_game = 1)

/-- `Series.mean()` over exact rationals: sum divided by length, with the
empty series yielding null (pandas `NaN`, i.e. not a number). -/
def meanQ (l : List ℚ) : Option ℚ :=
  if l.isEmpty then none else some (l.sum / l.length)

/-- `overall_hold_rate = serve_games["hold"].mean()` (line 60). -/
def overall_hold_rate (rows : List GameRow) : Option ℚ :=
  meanQ ((serve_games rows).map (fun r => (r.hold : ℚ)))

/-- Keep the first occurrence of each element, dropping later duplicates:
the key order in which pandas hash-based groupers first discover groups. -/
def dedupF {α : Type} [DecidableEq α] : List α → List α
  | [] => []
  | a :: l => a :: (dedupF l).filter (fun b => ¬ b = a)

/-- Sort key embedding `Series.sort_values(ascending=False)` on the
surface-counts series (line 55): stable descending sort by count. -/
def scRel (a b : String × Nat) : Prop := (b.2 : Int) ≤ (a.2 : Int)

instance : DecidableRel scRel := fun _ _ => inferInstanceAs (Decidable (_ ≤ _))

instance : IsTotal (String × Nat) scRel := ⟨fun _ _ => le_total _ _⟩

instance : IsTrans (String × Nat) scRel := ⟨fun _ _ _ => ge_trans⟩

/-- `surface_counts = df["SURFACE"].value_counts()` (line 55): per-surface
row counts, null surfaces dropped, sorted descending by count. -/
def surface_counts (rows : List GameRow) : List (String × Nat) :=
  List.insertionSort scRel
    ((dedupF (rows.filterMap (fun r => r.surface))).map
      (fun s => (s, (rows.filter (fun r => r.surface = some s)).length)))

/-- The mean of `hold` over the service rows on surface `s`:
`serve_games.groupby("SURFACE")["hold"].mean()` restricted to one group
(lines 66-71). -/
def surfaceRate (rows : List GameRow) (s : String) : ℚ :=
  (((serve_games rows).filter (fun r => r.surface = some s)).map
      (fun r => (r.hold : ℚ))).sum /
    (((serve_games rows).filter (fun r => r.surface = some s)).length : ℚ)

/-- The groupby keys of `serve_games.groupby("SURFACE")` (line 68):
distinct non-null surfaces of the service rows, sorted ascending. -/
def surfaceKeys (rows : List GameRow) : List String :=
  List.insertionSort (fun a b => a ≤ b)
    (dedupF ((serve_games rows).filterMap (fun r => r.surface)))

/-- Sort key for `.sort_values(ascending=False)` on the by-surface hold
rates (line 70): descending by rate; a stable sort of the ascending-keyed
groupby output breaks ties by ascending surface label, which is the
lexicographic order below. -/
def rRel (a b : String × ℚ) : Prop :=
  toLex (-a.2, a.1) ≤ toLex (-b.2, b.1)

instance : DecidableRel rRel := fun _ _ => inferInstanceAs (Decidable (_ ≤ _))

instance : IsTotal (String × ℚ) rRel := ⟨fun _ _ => le_total _ _⟩

instance : IsTrans (String × ℚ) rRel := ⟨fun _ _ _ => le_trans⟩

/-- `hold_by_surface = serve_games.groupby("SURFACE")["hold"].mean()
.sort_values(ascending=False)` (lines 66-71). -/
def hold_by_surface (rows : List GameRow) : List (String × ℚ) :=
  List.insertionSort rRel
    ((surfaceKeys rows).map (fun s => (s, surfaceRate rows s)))

/-- The weighted average of the `hold_by_surface` entries, each surface
weighted by its service-row count (the relation asserted by the spec's
testable property; null when there are no entries). -/
def weighted_avg_hold (rows : List GameRow) : Option ℚ :=
  if (hold_by_surface rows).isEmpty then none
  else
    some
      (((hold_by_surface rows).map (fun p =>
          p.2 *
            (((serve_games rows).filter (fun r => r.surface = some p.1)).length : ℚ))).sum /
        ((hold_by_surface rows).map (fun p =>
          (((serve_games rows).filter (fun r => r.surface = some p.1)).length : ℚ))).sum)

/-- Ascending order on month periods (year, then month number): the key
order of `groupby("MONTH")` (line 117). -/
def monthRel (a b : Nat × Nat) : Prop := toLex a ≤ toLex b

instance : DecidableRel monthRel := fun _ _ => inferInstanceAs (Decidable (_ ≤ _))

instance : IsTotal (Nat × Nat) monthRel := ⟨fun _ _ => le_total _ _⟩

instance : IsTrans (Nat × Nat) monthRel := ⟨fun _ _ _ => le_trans⟩

/-- Strict ascending order on month periods. -/
def monthLt (a b : Nat × Nat) : Prop := toLex a < toLex b

/-- The groupby keys of `df.dropna(subset=["MONTH"]).groupby("MONTH")`
(lines 116-117): the distinct non-null months, sorted ascending. -/
def monthKeys (rows : List GameRow) : List (Nat × Nat) :=
  List.insertionSort monthRel (dedupF (rows.filterMap (fun r => r.month)))

/-- `games_per_month = df.dropna(subset=["MONTH"]).groupby("MONTH")
["MATCH ID"].count()` (lines 115-120): per month, the count of non-null
`MATCH ID` cells among the rows of that month (pandas `count()` skips
nulls), keyed ascending by month. -/
def games_per_month (rows : List GameRow) : List ((Nat × Nat) × Nat) :=
  (monthKeys rows).map (fun m =>
    (m, ((rows.filter (fun r => r.month = some m)).filter
          (fun r => ¬ r.matchId = none)).length))

/-- The grouping key of `df.groupby(["TOURNAMENT ID", "TOURNAMENT NAME"])`
(line 139): pandas drops a row from the grouping when either key is null. -/
def tkey (r : GameRow) : Option (Nat × String) :=
  match r.tournamentId, r.tournamentName with
  | some i, some n => some (i, n)
  | _, _ => none

/-- Ascending order on tournament keys (id, then name): the key order of
the two-level groupby (line 139). -/
def tkeyRel (a b : Nat × String) : Prop := toLex a ≤ toLex b

instance : DecidableRel tkeyRel := fun _ _ => inferInstanceAs (Decidable (_ ≤ _))

instance : IsTotal (Nat × String) tkeyRel := ⟨fun _ _ => le_total _ _⟩

instance : IsTrans (Nat × String) tkeyRel := ⟨fun _ _ _ => le_trans⟩

/-- Strict ascending order on tournament keys. -/
def tkeyLt (a b : Nat × String) : Prop := toLex a < toLex b

/-- The groupby keys of line 139, sorted ascending. -/
def tKeys (rows : List GameRow) : List (Nat × String) :=
  List.insertionSort tkeyRel (dedupF (rows.filterMap tkey))

/-- `df.groupby(["TOURNAMENT ID", "TOURNAMENT NAME"])["MATCH ID"].count()`
for one group (lines 139-141): the number of non-null `MATCH ID` cells
among the group's rows. -/
def tCount (rows : List GameRow) (k : Nat × String) : Nat :=
  ((rows.filter (fun r => tkey r = some k)).filter
    (fun r => ¬ r.matchId = none)).length

/-- Sort key for `.sort_values(by="NUM_GAME_ROWS", ascending=False)`
(line 142): descending by count; a stable sort of the ascending-keyed
groupby output breaks ties by ascending tournament key, which is the
lexicographic order below. -/
def tRel (a b : (Nat × String) × Nat) : Prop :=
  toLex (-(a.2 : Int), toLex a.1) ≤ toLex (-(b.2 : Int), toLex b.1)

instance : DecidableRel tRel := fun _ _ => inferInstanceAs (Decidable (_ ≤ _))

instance : IsTotal ((Nat × String) × Nat) tRel := ⟨fun _ _ => le_total _ _⟩

instance : IsTrans ((Nat × String) × Nat) tRel := ⟨fun _ _ _ => le_trans⟩

/-- `top_tournaments` (lines 138-144): group by (tournament id, name),
count non-null `MATCH ID` per group, sort descending by count, take the
first 10. -/
def top_tournaments (rows : List GameRow) : List ((Nat × String) × Nat) :=
  (List.insertionSort tRel ((tKeys rows).map (fun k => (k, tCount rows k)))).take 10

/-- Stable descending-by-count order, ignoring the key: used to state the
claimed behaviour of `top_tournaments`. -/
def cntGe (a b : (Nat × String) × Nat) : Prop := b.2 ≤ a.2

instance : DecidableRel cntGe := fun _ _ => inferInstanceAs (Decidable (_ ≤ _))

/-- The claimed semantics of `top_tournaments`: count the ROWS of each
group, keep groups in discovery (first-appearance) order, stably sort
descending by count, take the first 10.  Stated for comparison with the
embedding of the code. -/
def top_tournaments_claimed (rows : List GameRow) : List ((Nat × String) × Nat) :=
  (List.insertionSort cntGe
    ((dedupF (rows.filterMap tkey)).map
      (fun k => (k, (rows.filter (fun r => tkey r = some k)).length)))).take 10

/-- `Load Error` taxonomy of the loader stage: missing/unreadable file, or
a header that lacks the expected column names. -/
inductive LoadError where
  | fileMissing
  | badHeader
deriving DecidableEq

/-- The column names the script reads from the dataset. -/
def expected_columns : List String :=
  ["MATCH DATE", "TOURNAMENT ID", "TOURNAMENT NAME", "MATCH ID", "SURFACE", "WON SERVE"]

/-- Modelled from the spec: the loading step
`df = pd.read_excel(file_path, header=1)` (line 24) together with the
script's immediate accesses to the expected columns.  `read_excel` is
pandas library code outside this repository; per the spec the load fails
fatally when the file is missing or unreadable, or when the second
physical line (the header, the first line being a banner) does not carry
the expected column names; otherwise the remaining lines are the data
rows.  A file is a list of physical lines, each a list of cell texts, or
`none` when missing/unreadable. -/
def load_rows (file : Option (List (List String))) :
    Except LoadError (List (List String)) :=
  match file with
  | none => Except.error LoadError.fileMissing
  | some lines =>
    match lines[1]? with
    | none => Except.error LoadError.badHeader
    | some hdr =>
      if expected_columns.all (fun c => hdr.contains c) then Except.ok (lines.drop 2)
      else Except.error LoadError.badHeader

/-! ### Helper lemmas -/

lemma mem_dedupF {α : Type} [DecidableEq α] (x : α) (l : List α) :
    x ∈ dedupF l ↔ x ∈ l := by
  induction l with
  | nil => simp [dedupF]
  | cons a l ih =>
    by_cases hxa : x = a
    · simp [dedupF, hxa]
    · simp [dedupF, List.mem_filter, hxa, ih]

lemma nodup_dedupF {α : Type} [DecidableEq α] (l : List α) : (dedupF l).Nodup := by
  induction l with
  | nil => simp [dedupF]
  | cons a l ih =>
    rw [dedupF, List.nodup_cons]
    refine ⟨fun h => ?_, ih.filter _⟩
    have h2 := (List.mem_filter.mp h).2
    simp at h2

lemma sum_map_add {κ M : Type} [AddCommMonoid M] (K : List κ) (p q : κ → M) :
    (K.map (fun k => p k + q k)).sum = (K.map p).sum + (K.map q).sum := by
  induction K with
  | nil => simp
  | cons a K ih =>
    simp only [List.map_cons, List.sum_cons, ih]
    abel

lemma sum_if_zero {κ M : Type} [AddCommMonoid M] [DecidableEq κ] {x : κ} (m : M)
    (K : List κ) (hx : x ∉ K) :
    (K.map (fun k => if x = k then m else 0)).sum = 0 := by
  induction K with
  | nil => simp
  | cons a K ih =>
    simp only [List.mem_cons, not_or] at hx
    simp [hx.1, ih hx.2]

lemma sum_if_single {κ M : Type} [AddCommMonoid M] [DecidableEq κ] {x : κ} (m : M)
    (K : List κ) (hnd : K.Nodup) (hx : x ∈ K) :
    (K.map (fun k => if x = k then m else 0)).sum = m := by
  induction K with
  | nil => cases hx
  | cons a K ih =>
    have hnd2 := List.nodup_cons.mp hnd
    rcases List.mem_cons.mp hx with rfl | h
    · simp [sum_if_zero m K hnd2.1]
    · have hxa : x ≠ a := by rintro rfl; exact hnd2.1 h
      simp [hxa, ih hnd2.2 h]

/-- Summing a weight group-by-group over a list of pairwise-distinct keys
that covers the list recovers the total sum. -/
lemma sum_partition {α κ M : Type} [DecidableEq κ] [AddCommMonoid M]
    (f : α → κ) (w : α → M) (K : List κ) (hnd : K.Nodup) (l : List α)
    (hcov : ∀ a ∈ l, f a ∈ K) :
    (K.map (fun k => ((l.filter (fun a => f a = k)).map w).sum)).sum = (l.map w).sum := by
  induction l with
  | nil => simp
  | cons a l ih =>
    have hstep : ∀ k : κ,
        (((a :: l).filter (fun x => f x = k)).map w).sum
          = (if f a = k then w a else 0) + ((l.filter (fun x => f x = k)).map w).sum := by
      intro k
      by_cases h : f a = k <;> simp [List.filter_cons, h]
    calc (K.map (fun k => (((a :: l).filter (fun x => f x = k)).map w).sum)).sum
        = (K.map (fun k =>
            (if f a = k then w a else 0)
              + ((l.filter (fun x => f x = k)).map w).sum)).sum := by
          simp only [hstep]
      _ = (K.map (fun k => if f a = k then w a else 0)).sum
            + (K.map (fun k => ((l.filter (fun x => f x = k)).map w).sum)).sum :=
          sum_map_add K _ _
      _ = w a + (l.map w).sum := by
          rw [ih (fun x hx => hcov x (List.mem_cons_of_mem a hx)),
            sum_if_single (w a) K hnd (hcov a (List.mem_cons_self a l))]
      _ = ((a :: l).map w).sum := by simp

lemma sum_map_one {α : Type} (l : List α) : (l.map (fun _ => (1 : ℕ))).sum = l.length := by
  induction l <;> simp [*, Nat.add_comm]

/-- Counting group-by-group over a covering list of distinct keys recovers
the total length. -/
lemma sum_partition_length {α κ : Type} [DecidableEq κ]
    (f : α → κ) (K : List κ) (hnd : K.Nodup) (l : List α)
    (hcov : ∀ a ∈ l, f a ∈ K) :
    (K.map (fun k => (l.filter (fun a => f a = k)).length)).sum = l.length := by
  have h := sum_partition f (fun _ => (1 : ℕ)) K hnd l hcov
  simpa [sum_map_one] using h

lemma sum_map_natCast {α : Type} (g : α → ℕ) (l : List α) :
    (l.map (fun a => ((g a : ℕ) : ℚ))).sum = (((l.map g).sum : ℕ) : ℚ) := by
  induction l <;> simp [*]

/-- The sum of a 0/1 flag column equals the number of rows where the flag
is 1. -/
lemma sum_holds (l : List GameRow) (h : ∀ r ∈ l, r.hold = 0 ∨ r.hold = 1) :
    (l.map (fun r => (r.hold : ℚ))).sum = ((l.filter (fun r => r.hold = 1)).length : ℚ) := by
  induction l with
  | nil => simp
  | cons a l ih =>
    have ih2 := ih (fun r hr => h r (List.mem_cons_of_mem a hr))
    rcases h a (List.mem_cons_self a l) with h0 | h1
    · simp [List.filter_cons, h0, ih2]
    · simp [List.filter_cons, h1, ih2]
      ring

lemma hold_flag (r : RawRow) : (derive r).hold = 0 ∨ (derive r).hold = 1 := by
  by_cases h : r.wonServe = some "WON" <;> simp [derive, h]

lemma tkey_eq_some {r : GameRow} {k : Nat × String} :
    tkey r = some k ↔ r.tournamentId = some k.1 ∧ r.tournamentName = some k.2 := by
  obtain ⟨i, n⟩ := k
  cases hi : r.tournamentId <;> cases hn : r.tournamentName <;> simp [tkey, hi, hn]

/-! ### Claim theorems -/

/-- C1: over any derived row collection, `overall_hold_rate` is the
arithmetic mean of the `hold` flag over the service rows — the number of
held service games divided by the number of service games — and it is
null (pandas `NaN`, not a number) exactly when there are no service
rows. -/
theorem overall_hold_rate_mean (raws : List RawRow) :
    overall_hold_rate (raws.map derive) =
      if (serve_games (raws.map derive)).isEmpty then none
      else
        some ((((serve_games (raws.map derive)).filter (fun r => r.hold = 1)).length : ℚ)
          / ((serve_games (raws.map derive)).length : ℚ)) := by
  have hflag : ∀ x ∈ serve_games (raws.map derive), x.hold = 0 ∨ x.hold = 1 := by
    intro x hx
    rcases List.mem_map.mp (List.mem_of_mem_filter hx) with ⟨raw, _, rfl⟩
    exact hold_flag raw
  unfold overall_hold_rate meanQ
  by_cases he : serve_games (raws.map derive) = []
  · simp [he]
  · have h1 : ¬(serve_games (raws.map derive)).isEmpty = true := by
      simpa [List.isEmpty_iff] using he
    have h2 : ¬((serve_games (raws.map derive)).map (fun r => (r.hold : ℚ))).isEmpty = true := by
      simp [List.isEmpty_iff, he]
    rw [if_neg h2, if_neg h1, sum_holds _ hflag, List.length_map]

/-- C2: `hold_by_surface` pairs each surface present among the service
rows with the mean of the `hold` flag on that surface, sorted strictly
descending by rate, with ties in ascending surface-label order — the
order a stable descending sort leaves the ascending-keyed groupby
output in. -/
theorem hold_by_surface_spec (rows : List GameRow) :
    List.Pairwise (fun a b : String × ℚ => b.2 < a.2 ∨ (a.2 = b.2 ∧ a.1 < b.1))
      (hold_by_surface rows)
    ∧ (∀ s q, (s, q) ∈ hold_by_surface rows ↔
        ((∃ r ∈ serve_games rows, r.surface = some s) ∧ q = surfaceRate rows s)) := by
  have hperm : List.Perm (hold_by_surface rows)
      ((surfaceKeys rows).map (fun s => (s, surfaceRate rows s))) :=
    List.perm_insertionSort rRel _
  have hsorted : List.Pairwise rRel (hold_by_surface rows) :=
    List.sorted_insertionSort rRel _
  have hkn : (surfaceKeys rows).Nodup :=
    (List.perm_insertionSort _ _).symm.nodup (nodup_dedupF _)
  have hmapfst : ((surfaceKeys rows).map (fun s => (s, surfaceRate rows s))).map Prod.fst
      = surfaceKeys rows := by
    simp [Function.comp_def]
  have hfstperm : List.Perm ((hold_by_surface rows).map Prod.fst) (surfaceKeys rows) := by
    have := hperm.map Prod.fst
    rwa [hmapfst] at this
  have hfstnodup : ((hold_by_surface rows).map Prod.fst).Nodup := hfstperm.symm.nodup hkn
  have hne2 : List.Pairwise (fun a b : String × ℚ => a.1 ≠ b.1) (hold_by_surface rows) :=
    List.pairwise_map.mp hfstnodup
  constructor
  · refine (hsorted.and hne2).imp ?_
    rintro a b ⟨hab, hne⟩
    have h1 : toLex (-a.2, a.1) ≤ toLex (-b.2, b.1) := hab
    rcases (Prod.Lex.le_iff _ _).mp h1 with h | h
    · exact Or.inl (neg_lt_neg_iff.mp h)
    · exact Or.inr ⟨neg_inj.mp h.1, lt_of_le_of_ne h.2 hne⟩
  · intro s q
    rw [hperm.mem_iff, List.mem_map]
    constructor
    · rintro ⟨k, hk, heq⟩
      obtain ⟨rfl, rfl⟩ := Prod.mk.injEq _ _ _ _ ▸ And.intro (congrArg Prod.fst heq)
        (congrArg Prod.snd heq)
      refine ⟨?_, rfl⟩
      have hs := (mem_dedupF _ _).mp ((List.perm_insertionSort _ _).subset hk)
      simpa using List.mem_filterMap.mp hs
    · rintro ⟨⟨r, hr, hsr⟩, rfl⟩
      refine ⟨s, ?_, rfl⟩
      exact (List.perm_insertionSort _ _).mem_iff.mpr
        ((mem_dedupF _ _).mpr (List.mem_filterMap.mpr ⟨r, hr, hsr⟩))

/-- Convenience constructor for raw rows. -/
def mkRaw (d : RawDate) (tid : Option Nat) (tn : Option String)
    (mid : Option Nat) (sf : Option String) (ws : Option String) : RawRow :=
  ⟨d, tid, tn, mid, sf, ws⟩

/-- A single row whose surface cell is empty. -/
def nullSurfaceRaw : RawRow := mkRaw RawDate.null none none none none none

/-- C4, counterexample: on a one-row collection whose surface is null,
`value_counts` drops the row, so the counts in `surface_counts` sum to 0
while `row_count` is 1 — the claimed equality fails. -/
theorem surface_counts_sum_counterexample :
    ((surface_counts [derive nullSurfaceRaw]).map (fun p => p.2)).sum
      ≠ num_rows [derive nullSurfaceRaw] := by
  decide

/-- C4, amended: the counts in `surface_counts` sum to the number of rows
whose surface is non-null (which equals `row_count` exactly when no row
has a null surface). -/
theorem surface_counts_sum (rows : List GameRow) :
    ((surface_counts rows).map (fun p => p.2)).sum
      = (rows.filter (fun r => ¬ r.surface = none)).length := by
  have hbridge : ∀ s : String, rows.filter (fun r => r.surface = some s)
      = (rows.filter (fun r => ¬ r.surface = none)).filter
          (fun r => r.surface = some s) := by
    intro s
    rw [List.filter_filter]
    refine List.filter_congr ?_
    intro r _
    cases hr : r.surface <;> simp [hr]
  have hnd : ((dedupF (rows.filterMap (fun r => r.surface))).map some).Nodup :=
    (nodup_dedupF _).map (Option.some_injective _)
  have hcov : ∀ r ∈ rows.filter (fun r => ¬ r.surface = none),
      r.surface ∈ (dedupF (rows.filterMap (fun r => r.surface))).map some := by
    intro r hr
    have h2 : ¬ r.surface = none := by simpa using (List.mem_filter.mp hr).2
    obtain ⟨s, hs⟩ := Option.ne_none_iff_exists'.mp h2
    have hmem : s ∈ dedupF (rows.filterMap (fun r => r.surface)) :=
      (mem_dedupF _ _).mpr
        (List.mem_filterMap.mpr ⟨r, (List.mem_filter.mp hr).1, hs⟩)
    rw [hs]
    exact List.mem_map.mpr ⟨s, hmem, rfl⟩
  have hpart := sum_partition_length (fun r : GameRow => r.surface)
    ((dedupF (rows.filterMap (fun r => r.surface))).map some) hnd
    (rows.filter (fun r => ¬ r.surface = none)) hcov
  calc ((surface_counts rows).map (fun p => p.2)).sum
      = (((dedupF (rows.filterMap (fun r => r.surface))).map
          (fun s => (s, (rows.filter (fun r => r.surface = some s)).length))).map
            (fun p => p.2)).sum :=
        ((List.perm_insertionSort scRel _).map (fun p : String × Nat => p.2)).sum_eq
    _ = ((dedupF (rows.filterMap (fun r => r.surface))).map
          (fun s => ((rows.filter (fun r => r.surface = some s)).length))).sum := by
        rw [List.map_map]
        simp only [Function.comp_def]
    _ = (rows.filter (fun r => ¬ r.surface = none)).length := by
        rw [List.map_map] at hpart
        simp only [Function.comp_def] at hpart
        simp only [hbridge]
        exact hpart

/-- A service row (a won serve) whose surface cell is empty. -/
def nullSurfServeRaw : RawRow := mkRaw RawDate.null none none (some 1) none (some "WON")

/-- A lost serve on Hard. -/
def hardLostRaw : RawRow := mkRaw RawDate.null none none (some 1) (some "Hard") (some "LOST")

/-- C3, counterexample: with one won service game on a null surface and
one lost service game on Hard, the overall hold rate is 1/2 but the
weighted average of the by-surface rates (only Hard, rate 0) is 0, so
the claimed equality fails for this row collection. -/
theorem overall_vs_weighted_counterexample :
    overall_hold_rate [derive nullSurfServeRaw, derive hardLostRaw] = some (1 / 2)
    ∧ weighted_avg_hold [derive nullSurfServeRaw, derive hardLostRaw] = some 0
    ∧ overall_hold_rate [derive nullSurfServeRaw, derive hardLostRaw]
        ≠ weighted_avg_hold [derive nullSurfServeRaw, derive hardLostRaw] := by
  have h1 : overall_hold_rate [derive nullSurfServeRaw, derive hardLostRaw] = some (1 / 2) := by
    simp [overall_hold_rate, meanQ, serve_games, derive, nullSurfServeRaw, hardLostRaw, mkRaw]
  have h2 : weighted_avg_hold [derive nullSurfServeRaw, derive hardLostRaw] = some 0 := by
    simp [weighted_avg_hold, hold_by_surface, surfaceKeys, surfaceRate, dedupF,
      serve_games, derive, nullSurfServeRaw, hardLostRaw, mkRaw,
      List.insertionSort, List.orderedInsert]
  refine ⟨h1, h2, ?_⟩
  rw [h1, h2]
  intro h
  have h3 := Option.some.inj h
  norm_num at h3

/-- C3, amended: whenever there is at least one service row and every
service row carries a non-null surface, the overall hold rate equals the
average of the `hold_by_surface` rates weighted by each surface's
service-row count (exactly, over rationals). -/
theorem overall_eq_weighted (rows : List GameRow)
    (hne : serve_games rows ≠ [])
    (hsf : ∀ r ∈ serve_games rows, ¬ r.surface = none) :
    overall_hold_rate rows = weighted_avg_hold rows := by
  have hKperm : List.Perm (surfaceKeys rows)
      (dedupF ((serve_games rows).filterMap (fun r => r.surface))) :=
    List.perm_insertionSort _ _
  have hKmem : ∀ s : String,
      s ∈ surfaceKeys rows ↔ ∃ r ∈ serve_games rows, r.surface = some s := by
    intro s
    rw [hKperm.mem_iff, mem_dedupF, List.mem_filterMap]
  have hnd : ((dedupF ((serve_games rows).filterMap (fun r => r.surface))).map some).Nodup :=
    (nodup_dedupF _).map (Option.some_injective _)
  have hcov : ∀ r ∈ serve_games rows,
      r.surface ∈ (dedupF ((serve_games rows).filterMap (fun r => r.surface))).map some := by
    intro r hr
    obtain ⟨s, hs⟩ := Option.ne_none_iff_exists'.mp (hsf r hr)
    have hmem : s ∈ dedupF ((serve_games rows).filterMap (fun r => r.surface)) :=
      (mem_dedupF _ _).mpr (List.mem_filterMap.mpr ⟨r, hr, hs⟩)
    rw [hs]
    exact List.mem_map.mpr ⟨s, hmem, rfl⟩
  have hwpos : ∀ s ∈ surfaceKeys rows,
      (((serve_games rows).filter (fun r => r.surface = some s)).length : ℚ) ≠ 0 := by
    intro s hs
    obtain ⟨r, hr, hsr⟩ := (hKmem s).mp hs
    have hmem : r ∈ (serve_games rows).filter (fun r => r.surface = some s) :=
      List.mem_filter.mpr ⟨hr, by simp [hsr]⟩
    have hpos : 0 < ((serve_games rows).filter (fun r => r.surface = some s)).length :=
      List.length_pos.mpr (List.ne_nil_of_mem hmem)
    exact_mod_cast Nat.pos_iff_ne_zero.mp hpos
  have hrw : ∀ s ∈ surfaceKeys rows,
      surfaceRate rows s
          * (((serve_games rows).filter (fun r => r.surface = some s)).length : ℚ)
        = (((serve_games rows).filter (fun r => r.surface = some s)).map
            (fun r => (r.hold : ℚ))).sum := by
    intro s hs
    unfold surfaceRate
    exact div_mul_cancel₀ _ (hwpos s hs)
  have hbsperm : List.Perm (hold_by_surface rows)
      ((surfaceKeys rows).map (fun s => (s, surfaceRate rows s))) :=
    List.perm_insertionSort rRel _
  -- the numerator: weighted rates sum to the total hold sum
  have hnum : ((hold_by_surface rows).map (fun p =>
      p.2 * (((serve_games rows).filter (fun r => r.surface = some p.1)).length : ℚ))).sum
        = ((serve_games rows).map (fun r => (r.hold : ℚ))).sum := by
    rw [(hbsperm.map (fun p : String × ℚ =>
          p.2 * (((serve_games rows).filter (fun r => r.surface = some p.1)).length : ℚ))).sum_eq,
      List.map_map]
    simp only [Function.comp_def]
    rw [List.map_eq_map_iff.mpr hrw, (hKperm.map _).sum_eq]
    have hpart := sum_partition (fun r : GameRow => r.surface) (fun r => (r.hold : ℚ))
      ((dedupF ((serve_games rows).filterMap (fun r => r.surface))).map some) hnd
      (serve_games rows) hcov
    rw [List.map_map] at hpart
    simpa [Function.comp_def] using hpart
  -- the denominator: weights sum to the number of service rows
  have hden : ((hold_by_surface rows).map (fun p =>
      (((serve_games rows).filter (fun r => r.surface = some p.1)).length : ℚ))).sum
        = ((serve_games rows).length : ℚ) := by
    rw [(hbsperm.map (fun p : String × ℚ =>
          (((serve_games rows).filter (fun r => r.surface = some p.1)).length : ℚ))).sum_eq,
      List.map_map]
    simp only [Function.comp_def]
    rw [(hKperm.map _).sum_eq, sum_map_natCast]
    have hpart := sum_partition_length (fun r : GameRow => r.surface)
      ((dedupF ((serve_games rows).filterMap (fun r => r.surface))).map some) hnd
      (serve_games rows) hcov
    rw [List.map_map] at hpart
    simp only [Function.comp_def] at hpart
    rw [hpart]
  -- both aggregates are defined here
  obtain ⟨r0, hr0⟩ := List.exists_mem_of_ne_nil _ hne
  obtain ⟨s0, hs0⟩ := Option.ne_none_iff_exists'.mp (hsf r0 hr0)
  have hk0 : s0 ∈ surfaceKeys rows := (hKmem s0).mpr ⟨r0, hr0, hs0⟩
  have hbne : hold_by_surface rows ≠ [] := by
    intro h
    have h2 := hbsperm.symm
    rw [h] at h2
    have h3 := h2.eq_nil
    rw [List.map_eq_nil_iff] at h3
    rw [h3] at hk0
    cases hk0
  unfold overall_hold_rate meanQ weighted_avg_hold
  rw [if_neg (by simp [List.isEmpty_iff, hne]), if_neg (by simp [List.isEmpty_iff, hbne]),
    hnum, hden, List.length_map]

/-- The spec's worked example: won and lost serves on Hard, a won serve
on Clay. -/
def exHardWonRaw : RawRow := mkRaw RawDate.null (some 1) (some "T") (some 1) (some "Hard") (some "WON")

/-- Lost serve on Hard (worked example). -/
def exHardLostRaw : RawRow := mkRaw RawDate.null (some 1) (some "T") (some 1) (some "Hard") (some "LOST")

/-- Won serve on Clay (worked example). -/
def exClayWonRaw : RawRow := mkRaw RawDate.null (some 1) (some "T") (some 2) (some "Clay") (some "WON")

/-- Witness for the amended C3 at the spec's worked example, where every
service row has a surface. -/
theorem overall_eq_weighted_witness :
    overall_hold_rate [derive exHardWonRaw, derive exHardLostRaw, derive exClayWonRaw]
      = weighted_avg_hold [derive exHardWonRaw, derive exHardLostRaw, derive exClayWonRaw] :=
  overall_eq_weighted _ (by decide) (by decide)

/-- A May-2024 row whose `MATCH ID` cell is empty. -/
def nullMidRaw : RawRow :=
  mkRaw (RawDate.valid 2024 5 10) (some 1) (some "X") none (some "Hard") (some "WON")

/-- C5, counterexample: a single May-2024 row with a null match id is a
row of that month, yet `["MATCH ID"].count()` skips the null cell, so
`games_per_month` reports 0 for the month while the month has 1 row —
the claimed per-month row count fails. -/
theorem games_per_month_counterexample :
    games_per_month [derive nullMidRaw] = [((2024, 5), 0)]
    ∧ ([derive nullMidRaw].filter (fun r => r.month = some (2024, 5))).length = 1
    ∧ games_per_month [derive nullMidRaw]
        ≠ [((2024, 5),
            ([derive nullMidRaw].filter (fun r => r.month = some (2024, 5))).length)] := by
  decide

/-- C5, amended: `games_per_month` maps each non-null month present to
the number of that month's rows having a non-null match id (the code
counts the `MATCH ID` column, whose null cells are skipped), sorted
strictly ascending by month; a null-month row is dropped from this
aggregate only, while still counting in `row_count`. -/
theorem games_per_month_spec (rows : List GameRow) :
    List.Pairwise (fun a b : (Nat × Nat) × Nat => monthLt a.1 b.1) (games_per_month rows)
    ∧ (∀ m c, (m, c) ∈ games_per_month rows ↔
        ((∃ r ∈ rows, r.month = some m) ∧
          c = ((rows.filter (fun r => r.month = some m)).filter
                (fun r => ¬ r.matchId = none)).length))
    ∧ (∀ r : GameRow, r.month = none →
        games_per_month (r :: rows) = games_per_month rows
          ∧ num_rows (r :: rows) = num_rows rows + 1) := by
  have hKperm : List.Perm (monthKeys rows) (dedupF (rows.filterMap (fun r => r.month))) :=
    List.perm_insertionSort _ _
  have hnd : (monthKeys rows).Nodup := hKperm.symm.nodup (nodup_dedupF _)
  have hsorted : List.Pairwise monthRel (monthKeys rows) :=
    List.sorted_insertionSort _ _
  have hstrict : List.Pairwise monthLt (monthKeys rows) := by
    refine (hsorted.and hnd).imp ?_
    rintro a b ⟨hab, hne⟩
    have h1 : toLex a ≤ toLex b := hab
    exact lt_of_le_of_ne h1 (fun h => hne (toLex_inj.mp h))
  refine ⟨?_, ?_, ?_⟩
  · exact List.pairwise_map.mpr hstrict
  · intro m c
    rw [games_per_month, List.mem_map]
    constructor
    · rintro ⟨k, hk, heq⟩
      injection heq with h1 h2
      subst h1
      subst h2
      refine ⟨?_, rfl⟩
      have hs := (mem_dedupF _ _).mp (hKperm.subset hk)
      simpa using List.mem_filterMap.mp hs
    · rintro ⟨⟨r, hr, hmr⟩, rfl⟩
      refine ⟨m, ?_, rfl⟩
      exact hKperm.mem_iff.mpr ((mem_dedupF _ _).mpr (List.mem_filterMap.mpr ⟨r, hr, hmr⟩))
  · intro r hr
    constructor
    · unfold games_per_month monthKeys
      have hk : (r :: rows).filterMap (fun x => x.month) = rows.filterMap (fun x => x.month) := by
        simp [List.filterMap_cons, hr]
      rw [hk]
      have hc : ∀ m : Nat × Nat, (r :: rows).filter (fun x => x.month = some m)
          = rows.filter (fun x => x.month = some m) := by
        intro m
        simp [List.filter_cons, hr]
      simp only [hc]
    · simp [num_rows]

/-- Witness for the amended C5: prepending a null-month row leaves
`games_per_month` unchanged while incrementing `row_count`. -/
theorem games_per_month_spec_witness :
    games_per_month (derive nullSurfaceRaw :: [derive nullMidRaw])
        = games_per_month [derive nullMidRaw]
      ∧ num_rows (derive nullSurfaceRaw :: [derive nullMidRaw])
        = num_rows [derive nullMidRaw] + 1 :=
  (games_per_month_spec [derive nullMidRaw]).2.2 (derive nullSurfaceRaw) (by decide)

/-- Tournament (2, "B"), discovered first, match id present. -/
def tRawB1 : RawRow := mkRaw RawDate.null (some 2) (some "B") (some 1) (some "Hard") none

/-- Tournament (2, "B"), null match id. -/
def tRawB2 : RawRow := mkRaw RawDate.null (some 2) (some "B") none (some "Hard") none

/-- Tournament (1, "A"), match id present. -/
def tRawA : RawRow := mkRaw RawDate.null (some 1) (some "A") (some 2) (some "Hard") none

/-- C6, counterexample: tournament (2,"B") has two rows (one with a null
match id) and is discovered first; (1,"A") has one row.  The claimed
procedure (count rows, ties in discovery order) yields
[((2,B),2),((1,A),1)], but the code counts non-null `MATCH ID` cells
(both groups get 1) and emits the tie in ascending group-key order,
yielding [((1,A),1),((2,B),1)]. -/
theorem top_tournaments_counterexample :
    top_tournaments [derive tRawB1, derive tRawB2, derive tRawA]
        = [((1, "A"), 1), ((2, "B"), 1)]
    ∧ top_tournaments_claimed [derive tRawB1, derive tRawB2, derive tRawA]
        = [((2, "B"), 2), ((1, "A"), 1)]
    ∧ top_tournaments [derive tRawB1, derive tRawB2, derive tRawA]
        ≠ top_tournaments_claimed [derive tRawB1, derive tRawB2, derive tRawA] := by
  decide

/-- C6, amended: `top_tournaments` groups rows by (tournament id, name)
(dropping rows with a null key part), counts each group's non-null
`MATCH ID` cells, sorts descending by count with ties in ascending
group-key order, and takes the first 10 — so it never has more than 10
entries, and each entry carries a present key with its count. -/
theorem top_tournaments_spec (rows : List GameRow) :
    (top_tournaments rows).length ≤ 10
    ∧ List.Pairwise (fun a b : (Nat × String) × Nat =>
        b.2 < a.2 ∨ (a.2 = b.2 ∧ tkeyLt a.1 b.1)) (top_tournaments rows)
    ∧ (∀ k c, (k, c) ∈ top_tournaments rows →
        ((∃ r ∈ rows, r.tournamentId = some k.1 ∧ r.tournamentName = some k.2)
          ∧ c = tCount rows k)) := by
  have hKperm : List.Perm (tKeys rows) (dedupF (rows.filterMap tkey)) :=
    List.perm_insertionSort _ _
  have hKnd : (tKeys rows).Nodup := hKperm.symm.nodup (nodup_dedupF _)
  have hfullperm : List.Perm
      (List.insertionSort tRel ((tKeys rows).map (fun k => (k, tCount rows k))))
      ((tKeys rows).map (fun k => (k, tCount rows k))) :=
    List.perm_insertionSort _ _
  have hsorted : List.Pairwise tRel
      (List.insertionSort tRel ((tKeys rows).map (fun k => (k, tCount rows k)))) :=
    List.sorted_insertionSort _ _
  have hmapfst : (((tKeys rows).map (fun k => (k, tCount rows k))).map Prod.fst)
      = tKeys rows := by
    simp [Function.comp_def]
  have hfstperm : List.Perm
      ((List.insertionSort tRel ((tKeys rows).map (fun k => (k, tCount rows k)))).map Prod.fst)
      (tKeys rows) := by
    have := hfullperm.map Prod.fst
    rwa [hmapfst] at this
  have hne2 : List.Pairwise (fun a b : (Nat × String) × Nat => a.1 ≠ b.1)
      (List.insertionSort tRel ((tKeys rows).map (fun k => (k, tCount rows k)))) :=
    List.pairwise_map.mp (hfstperm.symm.nodup hKnd)
  have hstrict : List.Pairwise (fun a b : (Nat × String) × Nat =>
      b.2 < a.2 ∨ (a.2 = b.2 ∧ tkeyLt a.1 b.1))
      (List.insertionSort tRel ((tKeys rows).map (fun k => (k, tCount rows k)))) := by
    refine (hsorted.and hne2).imp ?_
    rintro a b ⟨hab, hne⟩
    have h1 : toLex (-(a.2 : Int), toLex a.1) ≤ toLex (-(b.2 : Int), toLex b.1) := hab
    rcases (Prod.Lex.le_iff _ _).mp h1 with h | h
    · have h2 : (b.2 : Int) < (a.2 : Int) := neg_lt_neg_iff.mp h
      exact Or.inl (by exact_mod_cast h2)
    · have h2 : (a.2 : Int) = (b.2 : Int) := neg_inj.mp h.1
      have h3 : a.2 = b.2 := by exact_mod_cast h2
      exact Or.inr ⟨h3, lt_of_le_of_ne h.2 (fun he => hne (toLex_inj.mp he))⟩
  refine ⟨List.length_take_le _ _, hstrict.sublist (List.take_sublist _ _), ?_⟩
  intro k c hkc
  have h1 := hfullperm.subset (List.mem_of_mem_take hkc)
  rcases List.mem_map.mp h1 with ⟨k2, hk2, heq⟩
  injection heq with hA hB
  subst hA
  subst hB
  refine ⟨?_, rfl⟩
  have hs := (mem_dedupF _ _).mp (hKperm.subset hk2)
  rcases List.mem_filterMap.mp hs with ⟨r, hr, htk⟩
  exact ⟨r, hr, tkey_eq_some.mp htk⟩

/-- Witness for the amended C6 at the counterexample rows: the entry
((1,"A"),1) of `top_tournaments` carries a present key and the non-null
match-id count of its group. -/
theorem top_tournaments_spec_witness :
    (∃ r ∈ [derive tRawB1, derive tRawB2, derive tRawA],
        r.tournamentId = some 1 ∧ r.tournamentName = some "A")
      ∧ 1 = tCount [derive tRawB1, derive tRawB2, derive tRawA] (1, "A") :=
  (top_tournaments_spec _).2.2 (1, "A") 1 (by decide)

/-- C7: for every derived row, `hold = 1` implies `is_service_game = 1`;
and a row whose serve outcome is neither "WON" nor "LOST" (including a
null cell) gets both flags 0. -/
theorem held_implies_service (r : RawRow) :
    ((derive r).hold = 1 → (derive r).is_service_game = 1)
    ∧ (¬ r.wonServe = some "WON" → ¬ r.wonServe = some "LOST" →
        (derive r).hold = 0 ∧ (derive r).is_service_game = 0) := by
  by_cases h1 : r.wonServe = some "WON"
  · exact ⟨fun _ => by simp [derive, h1], fun h => absurd h1 h⟩
  · by_cases h2 : r.wonServe = some "LOST"
    · refine ⟨fun hh => by simp [derive, h1, h2], fun _ h => absurd h2 h⟩
    · refine ⟨fun hh => ?_, fun _ _ => by simp [derive, h1, h2]⟩
      exfalso
      simp [derive, h1] at hh

/-- A won serve with all other cells null. -/
def wonRaw : RawRow := mkRaw RawDate.null none none none none (some "WON")

/-- A row with outcome "N/A". -/
def naRaw : RawRow := mkRaw RawDate.null none none none none (some "N/A")

/-- Witness for C7: a "WON" row is a service game; an "N/A" row has both
flags 0. -/
theorem held_implies_service_witness :
    (derive wonRaw).is_service_game = 1
    ∧ ((derive naRaw).hold = 0 ∧ (derive naRaw).is_service_game = 0) :=
  ⟨(held_implies_service wonRaw).1 (by decide),
    (held_implies_service naRaw).2 (by decide) (by decide)⟩

/-- C8: the derived match date is exactly the permissive coercion (an
unparseable raw value becomes null, never an error), and the month is
the year-month truncation of the match date, null exactly when the match
date is null. -/
theorem month_null_propagation (r : RawRow) :
    (derive r).matchDate = to_datetime_coerce r.rawDate
    ∧ (∀ s, to_datetime_coerce (RawDate.invalid s) = none)
    ∧ (derive r).month = ((derive r).matchDate).map (fun d => (d.1, d.2.1))
    ∧ ((derive r).month = none ↔ (derive r).matchDate = none) := by
  refine ⟨rfl, fun _ => rfl, rfl, ?_⟩
  cases h : to_datetime_coerce r.rawDate <;> simp [derive, h]

/-- C9: the loader errors out when the file is missing or unreadable, or
when the second physical line is absent or lacks an expected column
name; otherwise it returns the lines after the second one as the data
rows (the second line being the header). -/
theorem load_rows_spec (file : Option (List (List String))) :
    (file = none → load_rows file = Except.error LoadError.fileMissing)
    ∧ (∀ lines, file = some lines →
        (lines[1]? = none → load_rows file = Except.error LoadError.badHeader)
        ∧ (∀ hdr, lines[1]? = some hdr →
            (expected_columns.all (fun c => hdr.contains c) = true →
              load_rows file = Except.ok (lines.drop 2))
            ∧ (¬ expected_columns.all (fun c => hdr.contains c) = true →
              load_rows file = Except.error LoadError.badHeader))) := by
  constructor
  · rintro rfl
    rfl
  · rintro lines rfl
    refine ⟨fun h => ?_, fun hdr h => ⟨fun hall => ?_, fun hall => ?_⟩⟩
    · simp only [load_rows, h]
    · simp only [load_rows, h]
      rw [if_pos hall]
    · simp only [load_rows, h]
      rw [if_neg hall]

/-- Witness for C9: a well-formed file (banner line, expected header,
one data row) loads its data rows; a missing file is a load error. -/
theorem load_rows_spec_witness :
    load_rows (some [["WTA 2024"], expected_columns, ["row1"]]) = Except.ok [["row1"]]
    ∧ load_rows none = Except.error LoadError.fileMissing :=
  ⟨(((load_rows_spec (some [["WTA 2024"], expected_columns, ["row1"]])).2
        [["WTA 2024"], expected_columns, ["row1"]] rfl).2
      expected_columns rfl).1 (by decide),
    (load_rows_spec none).1 rfl⟩

/-- C10: a null-surface row counts in `row_count` (and, when it is a
service game, in the overall hold-rate denominator) but leaves both
`surface_counts` and `hold_by_surface` untouched. -/
theorem null_surface_row_effect (r : GameRow) (rows : List GameRow)
    (h : r.surface = none) :
    num_rows (r :: rows) = num_rows rows + 1
    ∧ surface_counts (r :: rows) = surface_counts rows
    ∧ hold_by_surface (r :: rows) = hold_by_surface rows
    ∧ (r.is_service_game = 1 →
        (serve_games (r :: rows)).length = (serve_games rows).length + 1) := by
  refine ⟨by simp [num_rows], ?_, ?_, ?_⟩
  · unfold surface_counts
    have hk : (r :: rows).filterMap (fun x => x.surface)
        = rows.filterMap (fun x => x.surface) := by
      simp [List.filterMap_cons, h]
    have hc : ∀ s : String, (r :: rows).filter (fun x => x.surface = some s)
        = rows.filter (fun x => x.surface = some s) := by
      intro s
      simp [List.filter_cons, h]
    rw [hk]
    simp only [hc]
  · unfold hold_by_surface surfaceKeys surfaceRate
    have hfil : ∀ s : String,
        (serve_games (r :: rows)).filter (fun x => x.surface = some s)
          = (serve_games rows).filter (fun x => x.surface = some s) := by
      intro s
      unfold serve_games
      by_cases hs : r.is_service_game = 1 <;> simp [List.filter_cons, hs, h]
    have hkm : (serve_games (r :: rows)).filterMap (fun x => x.surface)
        = (serve_games rows).filterMap (fun x => x.surface) := by
      unfold serve_games
      by_cases hs : r.is_service_game = 1 <;>
        simp [List.filter_cons, hs, List.filterMap_cons, h]
    rw [hkm]
    simp only [hfil]
  · intro hs
    unfold serve_games
    simp [List.filter_cons, hs]

/-- Witness for C10: prepending the null-surface service row to a
one-row collection bumps `row_count` and the service-row count while
leaving both surface aggregates unchanged. -/
theorem null_surface_row_effect_witness :
    num_rows (derive nullSurfServeRaw :: [derive exHardWonRaw])
        = num_rows [derive exHardWonRaw] + 1
    ∧ surface_counts (derive nullSurfServeRaw :: [derive exHardWonRaw])
        = surface_counts [derive exHardWonRaw]
    ∧ hold_by_surface (derive nullSurfServeRaw :: [derive exHardWonRaw])
        = hold_by_surface [derive exHardWonRaw]
    ∧ (serve_games (derive nullSurfServeRaw :: [derive exHardWonRaw])).length
        = (serve_games [derive exHardWonRaw]).length + 1 := by
  have h := null_surface_row_effect (derive nullSurfServeRaw) [derive exHardWonRaw] rfl
  exact ⟨h.1, h.2.1, h.2.2.1, h.2.2.2 rfl⟩

end WTA
